import Mathlib

/-!
Verification development for the Rowan Tree game service.

The repository has three delivery layers over a tick-driven economy engine:
a legacy Flask API (`app/api.py`), a FastAPI client API
(`src/rowantree/client/api/main.py`) and a FastAPI service layer
(`src/rowantree/service/handlers/main.py`).  The economy-engine controllers
themselves (merchant transform, transport, action-queue tick, feature
evaluation) live in modules not present in the source tree, so they are
modelled here from the specification; the HTTP handlers are embedded
directly from the source.
-/

namespace RowanTree

/-! ## Legacy Flask API (`app/api.py`)

The legacy endpoints check two headers, validate the JSON body, then call a
MySQL stored procedure.  We embed each endpoint as a pure function taking
the headers, the (already-parsed) body and a database oracle, and returning
the HTTP response together with the list of stored-procedure invocations it
made. -/

/-- Request headers of the legacy API: `API-ACCESS-KEY` and `API-VERSION`. -/
structure LegacyHeaders where
  api_access_key : String
  api_version : String
deriving Repr, DecidableEq

/-- Server-side configuration consulted by the legacy endpoints
(`config.API_ACCESS_KEY`, `config.API_VERSION`). -/
structure LegacyConfig where
  api_access_key : String
  api_version : String
deriving Repr, DecidableEq

/-- A stored-procedure invocation: procedure name and its user-guid argument.
Embeds `cursor.callproc(proc, args)` calls made by the legacy endpoints. -/
structure ProcCall where
  proc : String
  guid : String
deriving Repr, DecidableEq

/-- Outcome of a legacy Flask endpoint: either `abort(code)` or a normal
response with a status code and an optional integer `active` field
(the only JSON body these endpoints produce). -/
inductive LegacyResponse where
  | aborted (code : Nat)
  | ok (activeField : Option Int) (code : Nat)
deriving Repr, DecidableEq

/-- Body of `/api/user/active/set`: a guid and the `active` field already
converted by `int(...)` (the source applies `int` to the JSON value). -/
structure ActiveSetBody where
  guid : String
  active : Int
deriving Repr, DecidableEq

/-- Embeds `make_user_active_state_set_public` from `app/api.py` (lines 100-132):
checks the access key (else 401) and version (else 400), requires a JSON
body with an `active` field (else 400); if `active == 1` calls
`setUserActiveByGUID`, if `active == 0` calls `setUserInactiveByGUID`,
otherwise calls no procedure; always returns status 201 when not aborted.
Returns the response and the stored-procedure calls performed. -/
def make_user_active_state_set_public (cfg : LegacyConfig) (hdrs : LegacyHeaders)
    (body : Option ActiveSetBody) : LegacyResponse × List ProcCall :=
  if hdrs.api_access_key ≠ cfg.api_access_key then (LegacyResponse.aborted 401, [])
  else if hdrs.api_version ≠ cfg.api_version then (LegacyResponse.aborted 400, [])
  else
    match body with
    | none => (LegacyResponse.aborted 400, [])
    | some b =>
      let proc : Option String :=
        if b.active = 1 then some "setUserActiveByGUID"
        else if b.active = 0 then some "setUserInactiveByGUID"
        else none
      match proc with
      | some p => (LegacyResponse.ok none 201, [⟨p, b.guid⟩])
      | none => (LegacyResponse.ok none 201, [])

/-- Embeds `make_user_active_state_public` from `app/api.py` (lines 71-97): after
the same header/body checks, calls `getUserActivityStateByGUID` via the
database oracle `db`; if the out-parameter is `None` the result defaults to
`0`, and the endpoint answers `{'active': result}` with status 201. -/
def make_user_active_state_public (cfg : LegacyConfig) (hdrs : LegacyHeaders)
    (body : Option String) (db : String → Option Int) : LegacyResponse × List ProcCall :=
  if hdrs.api_access_key ≠ cfg.api_access_key then (LegacyResponse.aborted 401, [])
  else if hdrs.api_version ≠ cfg.api_version then (LegacyResponse.aborted 400, [])
  else
    match body with
    | none => (LegacyResponse.aborted 400, [])
    | some guid =>
      let result : Int :=
        match db guid with
        | none => 0
        | some v => v
      (LegacyResponse.ok (some result) 201, [⟨"getUserActivityStateByGUID", guid⟩])

/-! ## Client API (`src/rowantree/client/api/main.py`)

Every `/v1` handler takes the `api_access_key` header (defaulting to the
missing value), calls `authorize` first, and only then invokes its
controller's `execute`.  Controllers and request/response contracts live in
modules outside the provided tree, so the embedding is polymorphic over the
controller state `σ`, the request payload and the response: a controller is
an arbitrary state-transforming function, and a handler returns the final
state together with either the controller's response or an HTTP error. -/

/-- Client API server configuration; `config.access_key` is the only field
the handlers consult. -/
structure ClientConfig where
  access_key : String
deriving Repr, DecidableEq

/-- HTTP errors raised by the client API delivery layer. -/
inductive ClientError where
  | unauthorized (detail : String)
deriving Repr, DecidableEq

/-- Embeds `authorize` from `client/api/main.py` (lines 94-97): raises
401 Unauthorized with detail "Bad Access Key" unless the request's
`api_access_key` header equals the configured access key.  The header is an
`Option String` because FastAPI supplies `None` when it is absent
(`Header(default=None)`). -/
def authorize (cfg : ClientConfig) (api_access_key : Option String) :
    Except ClientError Unit :=
  if api_access_key ≠ some cfg.access_key then
    Except.error (ClientError.unauthorized "Bad Access Key")
  else Except.ok ()

/-- The shared shape of every `/v1` client-API handler: run `authorize` on
the header; on failure return the error with the state untouched, otherwise
run the controller action and wrap its response in `Except.ok`. -/
def runGuarded {σ α : Type} (cfg : ClientConfig) (api_access_key : Option String)
    (act : σ → σ × α) (s : σ) : σ × Except ClientError α :=
  match authorize cfg api_access_key with
  | Except.error e => (s, Except.error e)
  | Except.ok _ =>
    let p := act s
    (p.1, Except.ok p.2)

/-- Embeds `merchant_transforms_perform_handler` (client API, lines 109-114):
authorize, then `merchant_transforms_perform_controller.execute`. -/
def merchant_transforms_perform_handler {σ ρ : Type} (cfg : ClientConfig)
    (controller : String → ρ → σ → σ × Unit)
    (user_guid : String) (request : ρ) (api_access_key : Option String)
    (s : σ) : σ × Except ClientError Unit :=
  runGuarded cfg api_access_key (controller user_guid request) s

/-- Embeds `user_active_get_handler` (client API, lines 118-121). -/
def user_active_get_handler {σ α : Type} (cfg : ClientConfig)
    (controller : String → σ → σ × α)
    (user_guid : String) (api_access_key : Option String)
    (s : σ) : σ × Except ClientError α :=
  runGuarded cfg api_access_key (controller user_guid) s

/-- Embeds `user_active_set_handler` (client API, lines 125-130). -/
def user_active_set_handler {σ ρ α : Type} (cfg : ClientConfig)
    (controller : String → ρ → σ → σ × α)
    (user_guid : String) (request : ρ) (api_access_key : Option String)
    (s : σ) : σ × Except ClientError α :=
  runGuarded cfg api_access_key (controller user_guid request) s

/-- Embeds `user_create_handler` (client API, lines 134-137). -/
def user_create_handler {σ α : Type} (cfg : ClientConfig)
    (controller : σ → σ × α) (api_access_key : Option String)
    (s : σ) : σ × Except ClientError α :=
  runGuarded cfg api_access_key controller s

/-- Embeds `user_delete_handler` (client API, lines 141-144). -/
def user_delete_handler {σ : Type} (cfg : ClientConfig)
    (controller : String → σ → σ × Unit)
    (user_guid : String) (api_access_key : Option String)
    (s : σ) : σ × Except ClientError Unit :=
  runGuarded cfg api_access_key (controller user_guid) s

/-- Embeds `user_features_get_handler` (client API, lines 147-152). -/
def user_features_get_handler {σ α : Type} (cfg : ClientConfig)
    (controller : String → σ → σ × α)
    (user_guid : String) (api_access_key : Option String)
    (s : σ) : σ × Except ClientError α :=
  runGuarded cfg api_access_key (controller user_guid) s

/-- Embeds `user_features_active_get_handler` (client API, lines 155-160); the
`details` query flag defaults to `false` and is forwarded to the
controller. -/
def user_features_active_get_handler {σ α : Type} (cfg : ClientConfig)
    (controller : String → Bool → σ → σ × α)
    (user_guid : String) (api_access_key : Option String) (details : Bool)
    (s : σ) : σ × Except ClientError α :=
  runGuarded cfg api_access_key (controller user_guid details) s

/-- Embeds `user_income_get_handler` (client API, lines 163-166). -/
def user_income_get_handler {σ α : Type} (cfg : ClientConfig)
    (controller : String → σ → σ × α)
    (user_guid : String) (api_access_key : Option String)
    (s : σ) : σ × Except ClientError α :=
  runGuarded cfg api_access_key (controller user_guid) s

/-- Embeds `user_income_set_handler` (client API, lines 169-174). -/
def user_income_set_handler {σ ρ : Type} (cfg : ClientConfig)
    (controller : String → ρ → σ → σ × Unit)
    (user_guid : String) (request : ρ) (api_access_key : Option String)
    (s : σ) : σ × Except ClientError Unit :=
  runGuarded cfg api_access_key (controller user_guid request) s

/-- Embeds `user_merchant_transforms_get_handler` (client API, lines 177-180). -/
def user_merchant_transforms_get_handler {σ α : Type} (cfg : ClientConfig)
    (controller : String → σ → σ × α)
    (user_guid : String) (api_access_key : Option String)
    (s : σ) : σ × Except ClientError α :=
  runGuarded cfg api_access_key (controller user_guid) s

/-- Embeds `user_population_get_handler` (client API, lines 183-188). -/
def user_population_get_handler {σ α : Type} (cfg : ClientConfig)
    (controller : String → σ → σ × α)
    (user_guid : String) (api_access_key : Option String)
    (s : σ) : σ × Except ClientError α :=
  runGuarded cfg api_access_key (controller user_guid) s

/-- Embeds `user_transport_handler` (client API, lines 191-196). -/
def user_transport_handler {σ ρ α : Type} (cfg : ClientConfig)
    (controller : String → ρ → σ → σ × α)
    (user_guid : String) (request : ρ) (api_access_key : Option String)
    (s : σ) : σ × Except ClientError α :=
  runGuarded cfg api_access_key (controller user_guid request) s

/-- Embeds `user_state_get_handler` (client API, lines 199-202). -/
def user_state_get_handler {σ α : Type} (cfg : ClientConfig)
    (controller : String → σ → σ × α)
    (user_guid : String) (api_access_key : Option String)
    (s : σ) : σ × Except ClientError α :=
  runGuarded cfg api_access_key (controller user_guid) s

/-- Embeds `user_stores_get_handler` (client API, lines 205-208). -/
def user_stores_get_handler {σ α : Type} (cfg : ClientConfig)
    (controller : String → σ → σ × α)
    (user_guid : String) (api_access_key : Option String)
    (s : σ) : σ × Except ClientError α :=
  runGuarded cfg api_access_key (controller user_guid) s

/-! ## Service layer (`src/rowantree/service/handlers/main.py`)

The service handlers are guarded by FastAPI dependencies from
`rowantree.auth.sdk`: `Depends(is_enabled)` on user routes and
`Depends(is_admin)` on `/v1/world` and `/v1/world/queue`.  FastAPI resolves
the dependency before the endpoint body runs, so a failing guard means the
controller is never invoked. -/

/-- Token claims carried by the bearer token, as consumed by the auth-SDK
guards: subject, admin flag, disabled flag. -/
structure TokenClaims where
  sub : String
  admin : Bool
  disabled : Bool
deriving Repr, DecidableEq

/-- Authorization failures raised by the auth-SDK dependency guards. -/
inductive AuthError where
  | notAuthorized
deriving Repr, DecidableEq

/-- Modelled from the spec: the `is_admin` dependency of
`rowantree.auth.sdk.common.depends` is not in the provided tree; per the
spec the queue-processing operation is "privileged/admin-triggered only,
never exposed to end users directly", so the guard admits a claim exactly
when it is an admin claim and rejects every other caller with an
authorization error. -/
def is_admin (claims : TokenClaims) : Except AuthError TokenClaims :=
  if claims.admin then Except.ok claims else Except.error AuthError.notAuthorized

/-- Modelled from the spec: the `is_enabled` dependency of
`rowantree.auth.sdk.common.depends` is not in the provided tree; it admits
any claim whose account is not disabled. -/
def is_enabled (claims : TokenClaims) : Except AuthError TokenClaims :=
  if claims.disabled then Except.error AuthError.notAuthorized else Except.ok claims

/-- The `/v1/world/queue` request body (`ActionQueue` contract): the queue
of pending user guids to process. -/
structure ActionQueue where
  queue : List String
deriving Repr, DecidableEq

/-- Embeds `action_queue_process_handler` (service layer, lines 589-613): the
endpoint depends on `is_admin`; when the guard passes, it runs
`action_queue_process_controller.execute(request=request)`, otherwise
FastAPI returns the guard's error and the body never executes.  `σ` is the
persisted world state the controller mutates. -/
def action_queue_process_handler {σ : Type} (controller : ActionQueue → σ → σ)
    (request : ActionQueue) (token_claims : TokenClaims)
    (s : σ) : σ × Except AuthError Unit :=
  match is_admin token_claims with
  | Except.error e => (s, Except.error e)
  | Except.ok _ => (controller request s, Except.ok ())

/-! ## Economy engine

The engine controllers (`merchant_transforms_perform`,
`user_transport`, `action_queue_process`, `user_features_active_get`) and
the stored procedures they drive are referenced by the handlers but their
modules are not in the provided tree, so the components below are modelled
from the specification (§4.1–§4.6): the resource ledger, income accrual,
the feature-unlock evaluator, the merchant transform, the transport engine
and the action-queue tick. -/

/-- A resource type name (e.g. "gold"). -/
abbrev ResourceType := String

/-- A population tier identifier. -/
abbrev TierId := String

/-- A gated-feature identifier. -/
abbrev FeatureId := String

/-- A user identifier (opaque guid string). -/
abbrev UserId := String

/-- Modelled from the spec: an `IncomeSource` row (§3) — per user and
resource type, a rate per tick and an enabled flag; the income controller
holding these is missing from the tree. -/
structure IncomeSource where
  resourceType : ResourceType
  rate : Int
  enabled : Bool

/-- Modelled from the spec: the per-user aggregate the persistence boundary
loads and saves (§6) — resource ledger, income sources, feature flags and
population tier counts; the DAO materialising it is missing from the
tree. -/
structure UserAggregate where
  ledger : ResourceType → Int
  income : List IncomeSource
  features : FeatureId → Bool
  population : TierId → Int

/-- Modelled from the spec: the error taxonomy of §7 for the synchronous
engine operations. -/
inductive EngineError where
  | insufficientResources
  | insufficientPopulation
  | unknownRecipe
  | invalidTier
deriving Repr, DecidableEq

/-- Modelled from the spec: per-user tick failures recorded by the action
queue processor (§7, `PerUserTickFailure(reason)` and
`PersistenceFailure`). -/
inductive TickError where
  | perUserTickFailure (reason : String)
  | persistenceFailure
deriving Repr, DecidableEq

/-- Modelled from the spec: `adjust` of the Resource Ledger (§4.1) — apply
a signed delta to one (user, resourceType) ledger entry, failing with
`InsufficientResources` if a negative delta would drive the quantity below
zero; the ledger DAO is missing from the tree. -/
def adjust (agg : UserAggregate) (t : ResourceType) (delta : Int) :
    Except EngineError UserAggregate :=
  if agg.ledger t + delta < 0 then Except.error EngineError.insufficientResources
  else Except.ok { agg with ledger := Function.update agg.ledger t (agg.ledger t + delta) }

/-- Modelled from the spec: the ledger effect of `accrue` (§4.2) on one
source list — each enabled income source adds its rate to the entry of its
resource type; the income controller is missing from the tree. -/
def accrueLedger (srcs : List IncomeSource) (l : ResourceType → Int) : ResourceType → Int :=
  srcs.foldl
    (fun acc src =>
      if src.enabled then Function.update acc src.resourceType (acc src.resourceType + src.rate)
      else acc) l

/-- Modelled from the spec: `accrue(userId)` of the Income Model (§4.2) —
mutates the resource ledger only; never reads or writes features or
population. -/
def accrue (agg : UserAggregate) : UserAggregate :=
  { agg with ledger := accrueLedger agg.income agg.ledger }

/-- Modelled from the spec: a feature-unlock predicate over ledger
quantities and population tier counts (§4.3: "store X ≥ threshold" or
"tier Y count ≥ threshold"), declared in static configuration; the
configuration tables are missing from the tree. -/
inductive UnlockPredicate where
  | storeAtLeast (t : ResourceType) (threshold : Int)
  | tierAtLeast (tier : TierId) (threshold : Int)
deriving Repr, DecidableEq

/-- Whether an unlock predicate holds of a user aggregate; it reads only
the ledger and the population. -/
def UnlockPredicate.holds : UnlockPredicate → UserAggregate → Bool
  | UnlockPredicate.storeAtLeast t thr, agg => decide (thr ≤ agg.ledger t)
  | UnlockPredicate.tierAtLeast tier thr, agg => decide (thr ≤ agg.population tier)

/-- Modelled from the spec: one row of the static feature-unlock
configuration — a feature id and its unlock predicate (§4.3). -/
structure FeatureRule where
  feature : FeatureId
  pred : UnlockPredicate

/-- Modelled from the spec: the traversal of the Feature Unlock Evaluator
(§4.3) — walk the configured rules, activate every currently-inactive
feature whose predicate holds, and accumulate the newly-activated ids. -/
def evaluateAux : List FeatureRule → UserAggregate → List FeatureId →
    UserAggregate × List FeatureId
  | [], agg, newly => (agg, newly)
  | rule :: rest, agg, newly =>
    if agg.features rule.feature = false ∧ rule.pred.holds agg = true then
      evaluateAux rest
        { agg with features := Function.update agg.features rule.feature true }
        (newly ++ [rule.feature])
    else evaluateAux rest agg newly

/-- Modelled from the spec: `evaluate(userId)` of the Feature Unlock
Evaluator (§4.3) — returns the updated aggregate and the set of
newly-activated feature ids; the `user_features_active_get` controller is
missing from the tree. -/
def evaluate (rules : List FeatureRule) (agg : UserAggregate) :
    UserAggregate × List FeatureId :=
  evaluateAux rules agg []

/-- Modelled from the spec: a static `MerchantRecipe` (§3): input resource
type and quantity, output resource type and quantity, defined once at
configuration time; the recipe table is missing from the tree. -/
structure MerchantRecipe where
  input_resource : ResourceType
  input_quantity : Int
  output_resource : ResourceType
  output_quantity : Int
deriving Repr, DecidableEq

/-- Modelled from the spec: `transform(userId, recipeId)` of the Merchant
Transform Engine (§4.4) — `UnknownRecipe` if the recipe is absent,
`InsufficientResources` if the ledger quantity of the input resource type
is below the recipe's input quantity, otherwise one atomic ledger
transaction subtracting the input quantity and adding the output quantity;
the `merchant_transforms_perform` controller is missing from the tree. -/
def transform (recipes : String → Option MerchantRecipe) (recipeId : String)
    (agg : UserAggregate) : Except EngineError UserAggregate :=
  match recipes recipeId with
  | none => Except.error EngineError.unknownRecipe
  | some r =>
    if agg.ledger r.input_resource < r.input_quantity then
      Except.error EngineError.insufficientResources
    else
      let l1 := Function.update agg.ledger r.input_resource
        (agg.ledger r.input_resource - r.input_quantity)
      let l2 := Function.update l1 r.output_resource
        (l1 r.output_resource + r.output_quantity)
      Except.ok { agg with ledger := l2 }

/-- Modelled from the spec: `transport(userId, fromTier, toTier, count)` of
the Transport Engine (§4.5) — `InvalidTier` unless the tiers are adjacent
per the configured tier graph, `InsufficientPopulation` if the `fromTier`
count is below `count`, otherwise atomically decrement `fromTier` and
increment `toTier` by `count`; the `user_transport` controller is missing
from the tree.  `count` is a count of population instances, hence a natural
number (§3: tier counts are non-negative). -/
def transport (adjacent : TierId → TierId → Bool) (fromTier toTier : TierId)
    (count : Nat) (agg : UserAggregate) : Except EngineError UserAggregate :=
  if adjacent fromTier toTier = false then Except.error EngineError.invalidTier
  else if agg.population fromTier < (count : Int) then
    Except.error EngineError.insufficientPopulation
  else
    let p1 := Function.update agg.population fromTier (agg.population fromTier - count)
    let p2 := Function.update p1 toTier (p1 toTier + count)
    Except.ok { agg with population := p2 }

/-- Modelled from the spec: one configured tier-growth rule of the tick
(§4.6: "population increases proportional to accumulated stores crossing a
threshold, consuming the threshold amount"); the exact formulas live in
stored procedures missing from the tree (§9), so a rule consumes
`threshold` of `resource` and adds one population unit at `tier` when the
store has crossed the threshold. -/
structure GrowthRule where
  resource : ResourceType
  threshold : Int
  tier : TierId

/-- Modelled from the spec: apply one tier-growth rule (§4.6) — when the
accumulated store crosses the positive threshold, consume the threshold
amount and grow the tier by one. -/
def applyGrowth (agg : UserAggregate) (g : GrowthRule) : UserAggregate :=
  if 0 < g.threshold ∧ g.threshold ≤ agg.ledger g.resource then
    { agg with
      ledger := Function.update agg.ledger g.resource (agg.ledger g.resource - g.threshold),
      population := Function.update agg.population g.tier (agg.population g.tier + 1) }
  else agg

/-- Modelled from the spec: the static configuration consumed by the core
(§6) — merchant recipe table, feature-unlock rules, tier-adjacency graph
and tier-growth rules, all immutable for the process lifetime. -/
structure EngineConfig where
  recipes : String → Option MerchantRecipe
  rules : List FeatureRule
  adjacent : TierId → TierId → Bool
  growth : List GrowthRule

/-- Modelled from the spec: the per-user tick body (§4.6) — income accrual,
then feature evaluation, then the configured tier-growth rules, in that
fixed order; the `action_queue_process` controller is missing from the
tree. -/
def tickUser (cfg : EngineConfig) (agg : UserAggregate) : UserAggregate :=
  let a1 := accrue agg
  let a2 := (evaluate cfg.rules a1).1
  cfg.growth.foldl applyGrowth a2

/-- Modelled from the spec: `processTick()` of the Action Queue Processor
(§4.6) — iterate the pending users; each user's tick either commits
(`Except.ok`, the world is updated at that user) or fails
(`Except.error`, that user rolls back to the pre-tick snapshot and the
failure is recorded); a failure never aborts the remaining users.  The
per-user step is a parameter so that both normal and failing steps are
covered. -/
def processTick (stepUser : UserId → UserAggregate → Except TickError UserAggregate) :
    List UserId → (UserId → UserAggregate) →
    (UserId → UserAggregate) × List (UserId × TickError)
  | [], world => (world, [])
  | uid :: rest, world =>
    match stepUser uid (world uid) with
    | Except.ok next => processTick stepUser rest (Function.update world uid next)
    | Except.error e =>
      let r := processTick stepUser rest world
      (r.1, (uid, e) :: r.2)

/-- Modelled from the spec: the engine operations of §8's first testable
property — income accrual, merchant transform, transport, feature-unlock
costs (signed ledger deltas via `adjust`, §4.1) and tick processing. -/
inductive EngineOp where
  | adjustOp (t : ResourceType) (delta : Int)
  | accrueOp
  | transformOp (recipeId : String)
  | transportOp (fromTier toTier : TierId) (count : Nat)
  | tickOp

/-- Modelled from the spec: run one engine operation against a user
aggregate; a failing operation aborts its transaction entirely and leaves
the aggregate unchanged (§7). -/
def applyOp (cfg : EngineConfig) (agg : UserAggregate) : EngineOp → UserAggregate
  | EngineOp.adjustOp t d =>
    match adjust agg t d with
    | Except.ok a => a
    | Except.error _ => agg
  | EngineOp.accrueOp => accrue agg
  | EngineOp.transformOp rid =>
    match transform cfg.recipes rid agg with
    | Except.ok a => a
    | Except.error _ => agg
  | EngineOp.transportOp f t c =>
    match transport cfg.adjacent f t c agg with
    | Except.ok a => a
    | Except.error _ => agg
  | EngineOp.tickOp => tickUser cfg agg

/-- Validity of a user aggregate for the ledger invariant: every ledger
quantity is non-negative and every income rate is non-negative (§3:
quantity never negative, rate ≥ 0). -/
def ValidAgg (agg : UserAggregate) : Prop :=
  (∀ t, 0 ≤ agg.ledger t) ∧ ∀ src ∈ agg.income, 0 ≤ src.rate

/-- Validity of the static configuration: recipe quantities are positive
(§3: "quantities fixed, positive"). -/
def ConfigValid (cfg : EngineConfig) : Prop :=
  ∀ rid r, cfg.recipes rid = some r → 0 < r.input_quantity ∧ 0 < r.output_quantity

/-- An aggregate is saturated for a rule set when every rule whose
predicate holds already has its feature active — the fixed points of the
unlock evaluator. -/
def Saturated (rules : List FeatureRule) (agg : UserAggregate) : Prop :=
  ∀ r ∈ rules, r.pred.holds agg = true → agg.features r.feature = true

/-- A demo aggregate for concrete evaluations: empty ledger, no income,
no active features, empty tiers. -/
def demoAgg : UserAggregate :=
  { ledger := fun _ => 0, income := [], features := fun _ => false, population := fun _ => 0 }

/-- A demo aggregate holding 100 gold. -/
def demoRichAgg : UserAggregate :=
  { demoAgg with ledger := Function.update demoAgg.ledger "gold" 100 }

/-- A demo aggregate holding 50 gold. -/
def demoPoorAgg : UserAggregate :=
  { demoAgg with ledger := Function.update demoAgg.ledger "gold" 50 }

/-- A demo aggregate with 5 population at tier "a". -/
def demoPopAgg : UserAggregate :=
  { demoAgg with population := Function.update demoAgg.population "a" 5 }

/-- A demo recipe table holding one recipe: gold×100 → gem×1. -/
def demoRecipes : String → Option MerchantRecipe :=
  fun rid => if rid = "gold_to_gem" then some ⟨"gold", 100, "gem", 1⟩ else none

/-- A demo engine configuration around `demoRecipes` with no unlock rules
and no growth rules, and tiers "a","b" adjacent. -/
def demoCfg : EngineConfig :=
  { recipes := demoRecipes
    rules := []
    adjacent := fun f t => f = "a" ∧ t = "b"
    growth := [] }

/-- A demo per-user tick step that fails for "alice" and rewards anyone
else with 5 gold. -/
def demoStep : UserId → UserAggregate → Except TickError UserAggregate :=
  fun uid agg =>
    if uid = "alice" then Except.error (TickError.perUserTickFailure "boom")
    else Except.ok { agg with ledger := Function.update agg.ledger "gold" (agg.ledger "gold" + 5) }

/-- The demo aggregate produced by `demoStep` on a non-failing user over
`demoAgg`: 5 gold added. -/
def demoGoldAgg : UserAggregate :=
  { demoAgg with ledger := Function.update demoAgg.ledger "gold" (demoAgg.ledger "gold" + 5) }

/-- A demo aggregate with feature "f0" already active. -/
def demoActiveAgg : UserAggregate :=
  { demoAgg with features := Function.update demoAgg.features "f0" true }

/-- A demo unlock-rule table: feature "farm" unlocks at 10 gold. -/
def demoRules : List FeatureRule :=
  [⟨"farm", UnlockPredicate.storeAtLeast "gold" 10⟩]

end RowanTree

namespace RowanTree

/-- C9. In the legacy Flask API, for every authorized
`/api/user/active/set` request whose `active` field converts to an integer
other than 0 or 1, no stored procedure is invoked and the endpoint still
responds with status 201 as if it succeeded. -/
theorem C9_active_set_other_values_noop (cfg : LegacyConfig) (hdrs : LegacyHeaders)
    (b : ActiveSetBody)
    (hkey : hdrs.api_access_key = cfg.api_access_key)
    (hver : hdrs.api_version = cfg.api_version)
    (h0 : b.active ≠ 0) (h1 : b.active ≠ 1) :
    make_user_active_state_set_public cfg hdrs (some b) = (LegacyResponse.ok none 201, []) := by
  simp [make_user_active_state_set_public, hkey, hver, h0, h1]

/-- Witness for C9: a concrete authorized request with `active = 2` makes no
stored-procedure call and responds 201. -/
theorem C9_active_set_other_values_noop_witness :
    make_user_active_state_set_public ⟨"k", "v"⟩ ⟨"k", "v"⟩ (some ⟨"guid-1", 2⟩)
      = (LegacyResponse.ok none 201, []) :=
  C9_active_set_other_values_noop ⟨"k", "v"⟩ ⟨"k", "v"⟩ ⟨"guid-1", 2⟩ rfl rfl
    (by decide) (by decide)

/-- C10. In the legacy Flask API, for every authorized
`/api/user/active/state` request for which the stored procedure returns
`None` for the activity state, the endpoint responds with `{'active': 0}`
and status 201 rather than a `UserNotFound` error. -/
theorem C10_active_state_none_is_zero (cfg : LegacyConfig) (hdrs : LegacyHeaders)
    (guid : String) (db : String → Option Int)
    (hkey : hdrs.api_access_key = cfg.api_access_key)
    (hver : hdrs.api_version = cfg.api_version)
    (hdb : db guid = none) :
    make_user_active_state_public cfg hdrs (some guid) db
      = (LegacyResponse.ok (some 0) 201, [⟨"getUserActivityStateByGUID", guid⟩]) := by
  simp [make_user_active_state_public, hkey, hver, hdb]

/-- Witness for C10: a concrete authorized request for an unknown guid
answers `{'active': 0}` with status 201. -/
theorem C10_active_state_none_is_zero_witness :
    make_user_active_state_public ⟨"k", "v"⟩ ⟨"k", "v"⟩ (some "missing-user")
        (fun _ => none)
      = (LegacyResponse.ok (some 0) 201, [⟨"getUserActivityStateByGUID", "missing-user"⟩]) :=
  C10_active_state_none_is_zero ⟨"k", "v"⟩ ⟨"k", "v"⟩ "missing-user" (fun _ => none)
    rfl rfl rfl

/-- Any client-API handler built on `runGuarded` rejects a request whose
access key does not match: it returns 401 Unauthorized with detail
"Bad Access Key" and leaves the state exactly as it was, so the controller
action is never applied. -/
theorem runGuarded_unauthorized {σ α : Type} (cfg : ClientConfig)
    (api_access_key : Option String) (act : σ → σ × α) (s : σ)
    (h : api_access_key ≠ some cfg.access_key) :
    runGuarded cfg api_access_key act s
      = (s, Except.error (ClientError.unauthorized "Bad Access Key")) := by
  unfold runGuarded authorize
  rw [if_pos h]

/-- C8. In the client API, every `/v1` user operation (merchant
transform, active get/set, create, delete, features, income get/set,
population, transport, state, stores) invokes the authorization check
before its controller executes: for every request whose `api_access_key`
header does not equal the configured access key, the handler answers a
401 Unauthorized error ("Bad Access Key") and returns the state unchanged —
the controller is never called, so no state mutation occurs. -/
theorem C8_client_api_requires_access_key {σ ρ α : Type} (cfg : ClientConfig)
    (key : Option String) (s : σ) (guid : String) (req : ρ) (details : Bool)
    (c1 : String → ρ → σ → σ × Unit) (c2 : String → σ → σ × α)
    (c3 : String → ρ → σ → σ × α) (c4 : σ → σ × α)
    (c5 : String → σ → σ × Unit) (c6 : String → σ → σ × α)
    (c7 : String → Bool → σ → σ × α) (c8 : String → σ → σ × α)
    (c9 : String → ρ → σ → σ × Unit) (c10 : String → σ → σ × α)
    (c11 : String → σ → σ × α) (c12 : String → ρ → σ → σ × α)
    (c13 : String → σ → σ × α) (c14 : String → σ → σ × α)
    (hkey : key ≠ some cfg.access_key) :
    merchant_transforms_perform_handler cfg c1 guid req key s
        = (s, Except.error (ClientError.unauthorized "Bad Access Key"))
    ∧ user_active_get_handler cfg c2 guid key s
        = (s, Except.error (ClientError.unauthorized "Bad Access Key"))
    ∧ user_active_set_handler cfg c3 guid req key s
        = (s, Except.error (ClientError.unauthorized "Bad Access Key"))
    ∧ user_create_handler cfg c4 key s
        = (s, Except.error (ClientError.unauthorized "Bad Access Key"))
    ∧ user_delete_handler cfg c5 guid key s
        = (s, Except.error (ClientError.unauthorized "Bad Access Key"))
    ∧ user_features_get_handler cfg c6 guid key s
        = (s, Except.error (ClientError.unauthorized "Bad Access Key"))
    ∧ user_features_active_get_handler cfg c7 guid key details s
        = (s, Except.error (ClientError.unauthorized "Bad Access Key"))
    ∧ user_income_get_handler cfg c8 guid key s
        = (s, Except.error (ClientError.unauthorized "Bad Access Key"))
    ∧ user_income_set_handler cfg c9 guid req key s
        = (s, Except.error (ClientError.unauthorized "Bad Access Key"))
    ∧ user_merchant_transforms_get_handler cfg c10 guid key s
        = (s, Except.error (ClientError.unauthorized "Bad Access Key"))
    ∧ user_population_get_handler cfg c11 guid key s
        = (s, Except.error (ClientError.unauthorized "Bad Access Key"))
    ∧ user_transport_handler cfg c12 guid req key s
        = (s, Except.error (ClientError.unauthorized "Bad Access Key"))
    ∧ user_state_get_handler cfg c13 guid key s
        = (s, Except.error (ClientError.unauthorized "Bad Access Key"))
    ∧ user_stores_get_handler cfg c14 guid key s
        = (s, Except.error (ClientError.unauthorized "Bad Access Key")) :=
  ⟨runGuarded_unauthorized cfg key _ s hkey, runGuarded_unauthorized cfg key _ s hkey,
   runGuarded_unauthorized cfg key _ s hkey, runGuarded_unauthorized cfg key _ s hkey,
   runGuarded_unauthorized cfg key _ s hkey, runGuarded_unauthorized cfg key _ s hkey,
   runGuarded_unauthorized cfg key _ s hkey, runGuarded_unauthorized cfg key _ s hkey,
   runGuarded_unauthorized cfg key _ s hkey, runGuarded_unauthorized cfg key _ s hkey,
   runGuarded_unauthorized cfg key _ s hkey, runGuarded_unauthorized cfg key _ s hkey,
   runGuarded_unauthorized cfg key _ s hkey, runGuarded_unauthorized cfg key _ s hkey⟩

/-- Witness for C8: with a missing access key (header `None`), each
concrete handler over state `Nat` with a state-incrementing controller
answers 401 and leaves the state at `0`. -/
theorem C8_client_api_requires_access_key_witness :
    (none : Option String) ≠ some "k"
    ∧ (merchant_transforms_perform_handler ⟨"k"⟩ (fun _ _ s => (s + 1, ())) "u" () none 0
        = ((0 : Nat), Except.error (ClientError.unauthorized "Bad Access Key"))
      ∧ user_active_get_handler ⟨"k"⟩ (fun _ s => (s + 1, s)) "u" none 0
        = ((0 : Nat), Except.error (ClientError.unauthorized "Bad Access Key"))
      ∧ user_active_set_handler ⟨"k"⟩ (fun _ _ s => (s + 1, s)) "u" () none 0
        = ((0 : Nat), Except.error (ClientError.unauthorized "Bad Access Key"))
      ∧ user_create_handler ⟨"k"⟩ (fun s => (s + 1, s)) none 0
        = ((0 : Nat), Except.error (ClientError.unauthorized "Bad Access Key"))
      ∧ user_delete_handler ⟨"k"⟩ (fun _ s => (s + 1, ())) "u" none 0
        = ((0 : Nat), Except.error (ClientError.unauthorized "Bad Access Key"))
      ∧ user_features_get_handler ⟨"k"⟩ (fun _ s => (s + 1, s)) "u" none 0
        = ((0 : Nat), Except.error (ClientError.unauthorized "Bad Access Key"))
      ∧ user_features_active_get_handler ⟨"k"⟩ (fun _ _ s => (s + 1, s)) "u" none false 0
        = ((0 : Nat), Except.error (ClientError.unauthorized "Bad Access Key"))
      ∧ user_income_get_handler ⟨"k"⟩ (fun _ s => (s + 1, s)) "u" none 0
        = ((0 : Nat), Except.error (ClientError.unauthorized "Bad Access Key"))
      ∧ user_income_set_handler ⟨"k"⟩ (fun _ _ s => (s + 1, ())) "u" () none 0
        = ((0 : Nat), Except.error (ClientError.unauthorized "Bad Access Key"))
      ∧ user_merchant_transforms_get_handler ⟨"k"⟩ (fun _ s => (s + 1, s)) "u" none 0
        = ((0 : Nat), Except.error (ClientError.unauthorized "Bad Access Key"))
      ∧ user_population_get_handler ⟨"k"⟩ (fun _ s => (s + 1, s)) "u" none 0
        = ((0 : Nat), Except.error (ClientError.unauthorized "Bad Access Key"))
      ∧ user_transport_handler ⟨"k"⟩ (fun _ _ s => (s + 1, s)) "u" () none 0
        = ((0 : Nat), Except.error (ClientError.unauthorized "Bad Access Key"))
      ∧ user_state_get_handler ⟨"k"⟩ (fun _ s => (s + 1, s)) "u" none 0
        = ((0 : Nat), Except.error (ClientError.unauthorized "Bad Access Key"))
      ∧ user_stores_get_handler ⟨"k"⟩ (fun _ s => (s + 1, s)) "u" none 0
        = ((0 : Nat), Except.error (ClientError.unauthorized "Bad Access Key"))) :=
  ⟨by decide,
   C8_client_api_requires_access_key ⟨"k"⟩ none 0 "u" () false
     (fun _ _ s => (s + 1, ())) (fun _ s => (s + 1, s)) (fun _ _ s => (s + 1, s))
     (fun s => (s + 1, s)) (fun _ s => (s + 1, ())) (fun _ s => (s + 1, s))
     (fun _ _ s => (s + 1, s)) (fun _ s => (s + 1, s)) (fun _ _ s => (s + 1, ()))
     (fun _ s => (s + 1, s)) (fun _ s => (s + 1, s)) (fun _ _ s => (s + 1, s))
     (fun _ s => (s + 1, s)) (fun _ s => (s + 1, s)) (by decide)⟩

/-- C7. `processTick` (action-queue processing) is reachable only by a
privileged/admin caller: for every request whose token claims lack admin
authorization, `action_queue_process_handler` fails with an authorization
error and the world state is unchanged — no user's state is advanced and
the controller never runs. -/
theorem C7_action_queue_admin_only {σ : Type} (controller : ActionQueue → σ → σ)
    (request : ActionQueue) (claims : TokenClaims) (s : σ)
    (h : claims.admin = false) :
    action_queue_process_handler controller request claims s
      = (s, Except.error AuthError.notAuthorized) := by
  simp [action_queue_process_handler, is_admin, h]

/-- Witness for C7: a concrete non-admin claim against a state-advancing
controller gets `notAuthorized` and the state stays `0`. -/
theorem C7_action_queue_admin_only_witness :
    TokenClaims.admin ⟨"bob", false, false⟩ = false
    ∧ action_queue_process_handler (fun _ s => s + 1) ⟨["u1", "u2"]⟩
        ⟨"bob", false, false⟩ (0 : Nat)
      = (0, Except.error AuthError.notAuthorized) :=
  ⟨rfl, C7_action_queue_admin_only (fun _ s => s + 1) ⟨["u1", "u2"]⟩
    ⟨"bob", false, false⟩ 0 rfl⟩

/-- The unlock evaluator never changes the ledger, the population or the
income sources: it only flips feature flags. -/
theorem evaluateAux_state (rules : List FeatureRule) :
    ∀ (agg : UserAggregate) (newly : List FeatureId),
      (evaluateAux rules agg newly).1.ledger = agg.ledger
      ∧ (evaluateAux rules agg newly).1.population = agg.population
      ∧ (evaluateAux rules agg newly).1.income = agg.income := by
  induction rules with
  | nil => intro agg newly; exact ⟨rfl, rfl, rfl⟩
  | cons rule rest ih =>
    intro agg newly
    by_cases h : agg.features rule.feature = false ∧ rule.pred.holds agg = true
    · simp only [evaluateAux, if_pos h]
      exact ih _ _
    · simp only [evaluateAux, if_neg h]
      exact ih _ _

/-- Unlock predicates read only the ledger and the population. -/
theorem holds_congr (p : UnlockPredicate) (a b : UserAggregate)
    (hl : a.ledger = b.ledger) (hp : a.population = b.population) :
    p.holds a = p.holds b := by
  cases p with
  | storeAtLeast t thr => simp only [UnlockPredicate.holds, hl]
  | tierAtLeast tier thr => simp only [UnlockPredicate.holds, hp]

/-- The unlock evaluator is monotone: a feature active on entry is active
on exit. -/
theorem evaluateAux_monotone (rules : List FeatureRule) :
    ∀ (agg : UserAggregate) (newly : List FeatureId) (f : FeatureId),
      agg.features f = true → (evaluateAux rules agg newly).1.features f = true := by
  induction rules with
  | nil => intro agg newly f hf; exact hf
  | cons rule rest ih =>
    intro agg newly f hf
    by_cases h : agg.features rule.feature = false ∧ rule.pred.holds agg = true
    · simp only [evaluateAux, if_pos h]
      apply ih
      by_cases hfe : f = rule.feature
      · subst hfe; simp [Function.update_same]
      · simpa [Function.update_apply, hfe] using hf
    · simp only [evaluateAux, if_neg h]
      exact ih _ _ _ hf

/-- After one run of the evaluator, every configured rule whose predicate
holds has its feature active. -/
theorem evaluateAux_saturates (rules : List FeatureRule) :
    ∀ (agg : UserAggregate) (newly : List FeatureId),
      Saturated rules (evaluateAux rules agg newly).1 := by
  induction rules with
  | nil => intro agg newly r hr; exact absurd hr (List.not_mem_nil r)
  | cons rule rest ih =>
    intro agg newly r hr
    rcases List.mem_cons.mp hr with hr | hr
    · subst hr
      by_cases h : agg.features r.feature = false ∧ r.pred.holds agg = true
      · simp only [evaluateAux, if_pos h]
        intro _
        apply evaluateAux_monotone
        simp [Function.update_same]
      · simp only [evaluateAux, if_neg h]
        intro hhold
        have hs := evaluateAux_state rest agg newly
        rw [holds_congr r.pred _ agg hs.1 hs.2.1] at hhold
        have hact : agg.features r.feature = true := by
          rcases Bool.eq_false_or_eq_true (agg.features r.feature) with hb | hb
          · exact hb
          · exact absurd ⟨hb, hhold⟩ h
        exact evaluateAux_monotone rest agg newly r.feature hact
    · by_cases h : agg.features rule.feature = false ∧ rule.pred.holds agg = true
      · simp only [evaluateAux, if_pos h]
        exact ih _ _ r hr
      · simp only [evaluateAux, if_neg h]
        exact ih _ _ r hr

/-- On a saturated aggregate the evaluator is a no-op: the state is
untouched and nothing is newly activated. -/
theorem evaluateAux_sat_noop (rules : List FeatureRule) :
    ∀ (agg : UserAggregate) (newly : List FeatureId), Saturated rules agg →
      evaluateAux rules agg newly = (agg, newly) := by
  induction rules with
  | nil => intro agg newly _; rfl
  | cons rule rest ih =>
    intro agg newly hsat
    have hcond : ¬(agg.features rule.feature = false ∧ rule.pred.holds agg = true) := by
      rintro ⟨hf, hh⟩
      have := hsat rule (List.mem_cons_self _ _) hh
      rw [this] at hf
      cases hf
    simp only [evaluateAux, if_neg hcond]
    exact ih _ _ (fun r hr => hsat r (List.mem_cons_of_mem _ hr))

/-- The tier-growth fold never changes feature flags. -/
theorem growthFold_features (gs : List GrowthRule) :
    ∀ (agg : UserAggregate), (gs.foldl applyGrowth agg).features = agg.features := by
  induction gs with
  | nil => intro agg; rfl
  | cons g rest ih =>
    intro agg
    rw [List.foldl_cons, ih]
    by_cases h : 0 < g.threshold ∧ g.threshold ≤ agg.ledger g.resource
    · simp only [applyGrowth, if_pos h]
    · simp only [applyGrowth, if_neg h]

/-- One world tick never deactivates a feature: income accrual and tier
growth do not touch feature flags, and the evaluator is monotone. -/
theorem tickUser_monotone (cfg : EngineConfig) (agg : UserAggregate) (f : FeatureId)
    (h : agg.features f = true) : (tickUser cfg agg).features f = true := by
  unfold tickUser
  rw [growthFold_features]
  exact evaluateAux_monotone cfg.rules (accrue agg) [] f h

/-- C6. Feature activation is monotonic and the evaluator idempotent:
a feature active in a user's aggregate stays active after any run of the
unlock evaluator and after any number of world ticks, and — for every
user aggregate whatsoever, active features or none — re-running
`evaluate` with no intervening state change changes nothing and returns
the empty set of newly-activated features. -/
theorem C6_features_monotone_idempotent (rules : List FeatureRule) (cfg : EngineConfig)
    (agg : UserAggregate) (f : FeatureId) :
    (agg.features f = true →
      (evaluate rules agg).1.features f = true
      ∧ ∀ n : ℕ, ((tickUser cfg)^[n] agg).features f = true)
    ∧ evaluate rules (evaluate rules agg).1 = ((evaluate rules agg).1, []) := by
  refine ⟨fun h => ⟨evaluateAux_monotone rules agg [] f h, fun n => ?_⟩,
    evaluateAux_sat_noop rules _ [] (evaluateAux_saturates rules agg [])⟩
  induction n with
  | zero => exact h
  | succ n ihn =>
    rw [Function.iterate_succ_apply']
    exact tickUser_monotone cfg _ f ihn

/-- Witness for C6: over a concrete aggregate with feature "f0" active,
the feature survives evaluation and three ticks and a second evaluation
activates nothing new; over the fresh aggregate with no active feature at
all, re-evaluation is likewise a no-op. -/
theorem C6_features_monotone_idempotent_witness :
    demoActiveAgg.features "f0" = true
    ∧ (evaluate demoRules demoActiveAgg).1.features "f0" = true
    ∧ ((tickUser demoCfg)^[3] demoActiveAgg).features "f0" = true
    ∧ evaluate demoRules (evaluate demoRules demoActiveAgg).1
        = ((evaluate demoRules demoActiveAgg).1, [])
    ∧ evaluate demoRules (evaluate demoRules demoAgg).1
        = ((evaluate demoRules demoAgg).1, []) :=
  have h : demoActiveAgg.features "f0" = true := by
    simp [demoActiveAgg, Function.update_same]
  have hm := C6_features_monotone_idempotent demoRules demoCfg demoActiveAgg "f0"
  have hfresh := C6_features_monotone_idempotent demoRules demoCfg demoAgg "f0"
  ⟨h, (hm.1 h).1, (hm.1 h).2 3, hm.2, hfresh.2⟩

/-- A user not in the pending list is untouched by the tick. -/
theorem processTick_not_mem (step : UserId → UserAggregate → Except TickError UserAggregate)
    (pending : List UserId) :
    ∀ (world : UserId → UserAggregate) (u : UserId), u ∉ pending →
      (processTick step pending world).1 u = world u := by
  induction pending with
  | nil => intro world u _; rfl
  | cons uid rest ih =>
    intro world u hu
    have hne : u ≠ uid := fun hh => hu (hh ▸ List.mem_cons_self _ _)
    have hrest : u ∉ rest := fun hh => hu (List.mem_cons_of_mem _ hh)
    cases hstep : step uid (world uid) with
    | ok next =>
      simp only [processTick, hstep]
      rw [ih _ _ hrest, Function.update_noteq hne]
    | error e =>
      simp only [processTick, hstep]
      exact ih _ _ hrest

/-- Every recorded failure belongs to a pending user. -/
theorem processTick_fail_mem (step : UserId → UserAggregate → Except TickError UserAggregate)
    (pending : List UserId) :
    ∀ (world : UserId → UserAggregate) (u : UserId) (e : TickError),
      (u, e) ∈ (processTick step pending world).2 → u ∈ pending := by
  induction pending with
  | nil => intro world u e hmem; exact absurd hmem (List.not_mem_nil _)
  | cons uid rest ih =>
    intro world u e hmem
    cases hstep : step uid (world uid) with
    | ok next =>
      simp only [processTick, hstep] at hmem
      exact List.mem_cons_of_mem _ (ih _ _ _ hmem)
    | error e0 =>
      simp only [processTick, hstep] at hmem
      rcases List.mem_cons.mp hmem with hmem | hmem
      · have hu : u = uid := congrArg Prod.fst hmem
        exact hu ▸ List.mem_cons_self _ _
      · exact List.mem_cons_of_mem _ (ih _ _ _ hmem)

/-- A pending user whose step succeeds is committed at its stepped value
and is never reported among the failures — independently of every other
user's outcome. -/
theorem processTick_success (step : UserId → UserAggregate → Except TickError UserAggregate)
    (pending : List UserId) :
    ∀ (world : UserId → UserAggregate) (B : UserId) (aggB : UserAggregate),
      pending.count B = 1 → step B (world B) = Except.ok aggB →
      (processTick step pending world).1 B = aggB
      ∧ ∀ e', (B, e') ∉ (processTick step pending world).2 := by
  induction pending with
  | nil => intro world B aggB hc _; simp at hc
  | cons uid rest ih =>
    intro world B aggB hc hok
    by_cases hBu : uid = B
    · subst hBu
      have hzero : rest.count uid = 0 := by
        rw [List.count_cons_self] at hc
        omega
      have hrest : uid ∉ rest := List.count_eq_zero.mp hzero
      simp only [processTick, hok]
      constructor
      · rw [processTick_not_mem step rest _ _ hrest, Function.update_same]
      · intro e' hmem
        exact hrest (processTick_fail_mem step rest _ _ _ hmem)
    · have hc' : rest.count B = 1 := by
        rw [List.count_cons_of_ne (fun hh => hBu hh.symm)] at hc
        exact hc
      cases hstep : step uid (world uid) with
      | ok next =>
        simp only [processTick, hstep]
        have hok' : step B (Function.update world uid next B) = Except.ok aggB := by
          rw [Function.update_noteq (fun hh => hBu hh.symm)]
          exact hok
        exact ih _ _ _ hc' hok'
      | error e0 =>
        simp only [processTick, hstep]
        obtain ⟨h1, h2⟩ := ih _ _ _ hc' hok
        refine ⟨h1, ?_⟩
        intro e' hmem
        rcases List.mem_cons.mp hmem with hmem | hmem
        · exact hBu (congrArg Prod.fst hmem).symm
        · exact h2 e' hmem

/-- A pending user whose step fails is rolled back to its pre-tick
snapshot and its failure is recorded. -/
theorem processTick_failure (step : UserId → UserAggregate → Except TickError UserAggregate)
    (pending : List UserId) :
    ∀ (world : UserId → UserAggregate) (A : UserId) (e : TickError),
      pending.count A = 1 → step A (world A) = Except.error e →
      (A, e) ∈ (processTick step pending world).2
      ∧ (processTick step pending world).1 A = world A := by
  induction pending with
  | nil => intro world A e hc _; simp at hc
  | cons uid rest ih =>
    intro world A e hc hfail
    by_cases hAu : uid = A
    · subst hAu
      have hzero : rest.count uid = 0 := by
        rw [List.count_cons_self] at hc
        omega
      have hrest : uid ∉ rest := List.count_eq_zero.mp hzero
      simp only [processTick, hfail]
      exact ⟨List.mem_cons_self _ _, processTick_not_mem step rest _ _ hrest⟩
    · have hc' : rest.count A = 1 := by
        rw [List.count_cons_of_ne (fun hh => hAu hh.symm)] at hc
        exact hc
      cases hstep : step uid (world uid) with
      | ok next =>
        simp only [processTick, hstep]
        have hfail' : step A (Function.update world uid next A) = Except.error e := by
          rw [Function.update_noteq (fun hh => hAu hh.symm)]
          exact hfail
        obtain ⟨h1, h2⟩ := ih _ _ _ hc' hfail'
        refine ⟨h1, ?_⟩
        rw [h2, Function.update_noteq (fun hh => hAu hh.symm)]
      | error e0 =>
        simp only [processTick, hstep]
        obtain ⟨h1, h2⟩ := ih _ _ _ hc' hfail
        exact ⟨List.mem_cons_of_mem _ h1, h2⟩

/-- C1. A failure while processing user A in a tick does not prevent
or alter user B's successful processing: B commits exactly its stepped
value and is not reported failed, while A's failure is collected in the
tick's failure list and A rolls back to its pre-tick snapshot — the tick
as a whole is never aborted by a single user's failure. -/
theorem C1_tick_fault_isolation
    (step : UserId → UserAggregate → Except TickError UserAggregate)
    (pending : List UserId) (world : UserId → UserAggregate)
    (A B : UserId) (aggB : UserAggregate) (e : TickError)
    (hcA : pending.count A = 1) (hcB : pending.count B = 1)
    (hfail : step A (world A) = Except.error e)
    (hok : step B (world B) = Except.ok aggB) :
    (processTick step pending world).1 B = aggB
    ∧ (∀ e', (B, e') ∉ (processTick step pending world).2)
    ∧ (A, e) ∈ (processTick step pending world).2
    ∧ (processTick step pending world).1 A = world A := by
  obtain ⟨hB1, hB2⟩ := processTick_success step pending world B aggB hcB hok
  obtain ⟨hA1, hA2⟩ := processTick_failure step pending world A e hcA hfail
  exact ⟨hB1, hB2, hA1, hA2⟩

/-- Witness for C1: in a concrete tick over ["alice", "bob"] where the
step fails for "alice", "bob" still commits its 5-gold reward, "alice"
rolls back to the pre-tick aggregate, and the failure is recorded. -/
theorem C1_tick_fault_isolation_witness :
    (["alice", "bob"].count "alice" = 1 ∧ ["alice", "bob"].count "bob" = 1)
    ∧ (processTick demoStep ["alice", "bob"] (fun _ => demoAgg)).1 "bob" = demoGoldAgg
    ∧ ("alice", TickError.perUserTickFailure "boom")
        ∈ (processTick demoStep ["alice", "bob"] (fun _ => demoAgg)).2
    ∧ (processTick demoStep ["alice", "bob"] (fun _ => demoAgg)).1 "alice" = demoAgg :=
  have hmain := C1_tick_fault_isolation demoStep ["alice", "bob"] (fun _ => demoAgg)
    "alice" "bob" demoGoldAgg (TickError.perUserTickFailure "boom")
    (by decide) (by decide) rfl rfl
  ⟨⟨by decide, by decide⟩, hmain.1, hmain.2.2.1, hmain.2.2.2⟩

/-- C2. If the user's ledger quantity of the recipe's input resource
type is strictly below the recipe's input quantity, the merchant transform
fails with `InsufficientResources` and running the operation leaves the
user's aggregate — in particular both the input and the output ledger
entries — completely unchanged. -/
theorem C2_transform_insufficient (cfg : EngineConfig) (rid : String)
    (r : MerchantRecipe) (agg : UserAggregate)
    (hrec : cfg.recipes rid = some r)
    (hlt : agg.ledger r.input_resource < r.input_quantity) :
    transform cfg.recipes rid agg = Except.error EngineError.insufficientResources
    ∧ applyOp cfg agg (EngineOp.transformOp rid) = agg := by
  have h1 : transform cfg.recipes rid agg
      = Except.error EngineError.insufficientResources := by
    unfold transform
    rw [hrec]
    exact if_pos hlt
  refine ⟨h1, ?_⟩
  simp only [applyOp, h1]

/-- Witness for C2: a user with 50 gold against the gold×100 → gem×1
recipe gets `InsufficientResources` and the aggregate is unchanged. -/
theorem C2_transform_insufficient_witness :
    transform demoRecipes "gold_to_gem" demoPoorAgg
      = Except.error EngineError.insufficientResources
    ∧ applyOp demoCfg demoPoorAgg (EngineOp.transformOp "gold_to_gem") = demoPoorAgg :=
  C2_transform_insufficient demoCfg "gold_to_gem" ⟨"gold", 100, "gem", 1⟩ demoPoorAgg
    rfl (by decide)

/-- C3. When the affordability check passes for a known recipe, the
merchant transform succeeds with a single ledger transaction: the input
resource type loses exactly the input quantity, the output resource type
gains exactly the output quantity, every other ledger entry and the
income, feature and population state are untouched. -/
theorem C3_transform_applies (cfg : EngineConfig) (rid : String)
    (r : MerchantRecipe) (agg : UserAggregate)
    (hrec : cfg.recipes rid = some r)
    (hge : r.input_quantity ≤ agg.ledger r.input_resource)
    (hio : r.input_resource ≠ r.output_resource) :
    ∃ agg', transform cfg.recipes rid agg = Except.ok agg'
      ∧ agg'.ledger r.input_resource = agg.ledger r.input_resource - r.input_quantity
      ∧ agg'.ledger r.output_resource = agg.ledger r.output_resource + r.output_quantity
      ∧ (∀ t, t ≠ r.input_resource → t ≠ r.output_resource → agg'.ledger t = agg.ledger t)
      ∧ agg'.income = agg.income
      ∧ agg'.features = agg.features
      ∧ agg'.population = agg.population := by
  have hnlt : ¬ agg.ledger r.input_resource < r.input_quantity := not_lt.mpr hge
  have hoi : r.output_resource ≠ r.input_resource := Ne.symm hio
  refine ⟨{ agg with ledger := (Function.update
      (Function.update agg.ledger r.input_resource
        (agg.ledger r.input_resource - r.input_quantity))
      r.output_resource
      (Function.update agg.ledger r.input_resource
        (agg.ledger r.input_resource - r.input_quantity) r.output_resource
        + r.output_quantity)) }, ?_, ?_, ?_, ?_, rfl, rfl, rfl⟩
  · unfold transform
    rw [hrec]
    exact if_neg hnlt
  · show Function.update _ r.output_resource _ r.input_resource = _
    rw [Function.update_noteq hio, Function.update_same]
  · show Function.update _ r.output_resource _ r.output_resource = _
    rw [Function.update_same, Function.update_noteq hoi]
  · intro t ht1 ht2
    show Function.update _ r.output_resource _ t = _
    rw [Function.update_noteq ht2, Function.update_noteq ht1]

/-- Witness for C3: the spec's scenario — a user with 100 gold applying
gold×100 → gem×1 ends with exactly 0 gold and 1 gem. -/
theorem C3_transform_applies_witness :
    (transform demoCfg.recipes "gold_to_gem" demoRichAgg).map
      (fun a => (a.ledger "gold", a.ledger "gem")) = Except.ok ((0 : Int), (1 : Int)) := by
  obtain ⟨agg', heq, hin, hout, -, -, -, -⟩ :=
    C3_transform_applies demoCfg "gold_to_gem" ⟨"gold", 100, "gem", 1⟩ demoRichAgg
      rfl (by decide) (by decide)
  have hin' : agg'.ledger "gold" = demoRichAgg.ledger "gold" - 100 := hin
  have hout' : agg'.ledger "gem" = demoRichAgg.ledger "gem" + 1 := hout
  have h1 : demoRichAgg.ledger "gold" = 100 := by decide
  have h2 : demoRichAgg.ledger "gem" = 0 := by decide
  rw [heq]
  simp only [Except.map]
  rw [hin', hout', h1, h2]
  norm_num

/-- C4. A successful transport moves exactly `count` population from
`fromTier` to `toTier`: the `fromTier` count drops by `count`, the
`toTier` count rises by `count`, every other tier is untouched, and the
total population — the sum of counts over any set of tiers containing
both endpoints, in particular `count(fromTier)+count(toTier)` — is exactly
conserved; transport is never a source or sink of population, and it does
not touch the ledger, features or income. -/
theorem C4_transport_conserves (adjacent : TierId → TierId → Bool)
    (fromTier toTier : TierId) (count : ℕ) (agg : UserAggregate)
    (hadj : adjacent fromTier toTier = true)
    (hge : (count : Int) ≤ agg.population fromTier) :
    ∃ agg', transport adjacent fromTier toTier count agg = Except.ok agg'
      ∧ (fromTier ≠ toTier →
          agg'.population fromTier = agg.population fromTier - count
          ∧ agg'.population toTier = agg.population toTier + count)
      ∧ (∀ t, t ≠ fromTier → t ≠ toTier → agg'.population t = agg.population t)
      ∧ (∀ s : Finset TierId, fromTier ∈ s → toTier ∈ s →
          (∑ t in s, agg'.population t) = ∑ t in s, agg.population t)
      ∧ agg'.ledger = agg.ledger
      ∧ agg'.features = agg.features
      ∧ agg'.income = agg.income := by
  have hc1 : ¬ (adjacent fromTier toTier = false) := by simp [hadj]
  have hc2 : ¬ (agg.population fromTier < (count : Int)) := not_lt.mpr hge
  refine ⟨{ agg with population := (Function.update
      (Function.update agg.population fromTier (agg.population fromTier - count))
      toTier
      (Function.update agg.population fromTier (agg.population fromTier - count) toTier
        + count)) }, ?_, ?_, ?_, ?_, rfl, rfl, rfl⟩
  · unfold transport
    rw [if_neg hc1]
    rw [if_neg hc2]
  · intro hft
    have htf : toTier ≠ fromTier := Ne.symm hft
    constructor
    · show Function.update _ toTier _ fromTier = _
      rw [Function.update_noteq hft, Function.update_same]
    · show Function.update _ toTier _ toTier = _
      rw [Function.update_same, Function.update_noteq htf]
  · intro t ht1 ht2
    show Function.update _ toTier _ t = _
    rw [Function.update_noteq ht2, Function.update_noteq ht1]
  · intro s hf ht
    by_cases hft : fromTier = toTier
    · subst hft
      refine Finset.sum_congr rfl (fun x _ => ?_)
      show Function.update _ fromTier _ x = _
      by_cases hx : x = fromTier
      · subst hx
        rw [Function.update_same, Function.update_same]
        ring
      · rw [Function.update_noteq hx, Function.update_noteq hx]
    · have htf : toTier ≠ fromTier := fun hh => hft hh.symm
      have hf' : fromTier ∈ s \ {toTier} := Finset.mem_sdiff.mpr ⟨hf, by simp [hft]⟩
      rw [Finset.sum_update_of_mem ht, Finset.sum_update_of_mem hf',
        Function.update_noteq htf,
        Finset.sum_eq_sum_diff_singleton_add ht agg.population,
        Finset.sum_eq_sum_diff_singleton_add hf' agg.population]
      ring

/-- Witness for C4: the spec's scenario — moving 3 population from tier
"a" (count 5) to tier "b" (count 0) yields counts a = 2 and b = 3. -/
theorem C4_transport_conserves_witness :
    (transport demoCfg.adjacent "a" "b" 3 demoPopAgg).map
      (fun x => (x.population "a", x.population "b")) = Except.ok ((2 : Int), (3 : Int)) := by
  obtain ⟨agg', heq, hpt, -, -, -, -, -⟩ :=
    C4_transport_conserves demoCfg.adjacent "a" "b" 3 demoPopAgg (by decide) (by decide)
  obtain ⟨ha, hb⟩ := hpt (by decide)
  have h1 : demoPopAgg.population "a" = 5 := by decide
  have h2 : demoPopAgg.population "b" = 0 := by decide
  rw [h1] at ha
  rw [h2] at hb
  rw [heq]
  simp only [Except.map]
  rw [ha, hb]
  norm_num

/-- Shape of a successful merchant transform: the affordable case applies
the subtract-then-add ledger transaction. -/
theorem transform_ok (recipes : String → Option MerchantRecipe) (rid : String)
    (r : MerchantRecipe) (agg : UserAggregate)
    (hrec : recipes rid = some r)
    (hnlt : ¬ agg.ledger r.input_resource < r.input_quantity) :
    transform recipes rid agg = Except.ok { agg with ledger := (Function.update
      (Function.update agg.ledger r.input_resource
        (agg.ledger r.input_resource - r.input_quantity))
      r.output_resource
      (Function.update agg.ledger r.input_resource
        (agg.ledger r.input_resource - r.input_quantity) r.output_resource
        + r.output_quantity)) } := by
  unfold transform
  rw [hrec]
  exact if_neg hnlt

/-- Income accrual with non-negative rates keeps every ledger entry
non-negative. -/
theorem accrueLedger_nonneg (srcs : List IncomeSource) :
    ∀ (l : ResourceType → Int), (∀ s ∈ srcs, 0 ≤ s.rate) → (∀ t, 0 ≤ l t) →
      ∀ t, 0 ≤ accrueLedger srcs l t := by
  induction srcs with
  | nil => intro l _ hl t; exact hl t
  | cons src rest ih =>
    intro l hr hl t
    have hstep : accrueLedger (src :: rest) l
        = accrueLedger rest
          (if src.enabled then
            Function.update l src.resourceType (l src.resourceType + src.rate)
           else l) := rfl
    rw [hstep]
    refine ih _ (fun s hs => hr s (List.mem_cons_of_mem _ hs)) (fun t' => ?_) t
    by_cases he : src.enabled
    · rw [if_pos he, Function.update_apply]
      by_cases ht : t' = src.resourceType
      · rw [if_pos ht]
        exact add_nonneg (hl _) (hr src (List.mem_cons_self _ _))
      · rw [if_neg ht]
        exact hl t'
    · rw [if_neg he]
      exact hl t'

/-- Income accrual preserves aggregate validity. -/
theorem accrue_valid (agg : UserAggregate) (hv : ValidAgg agg) : ValidAgg (accrue agg) :=
  ⟨fun t => accrueLedger_nonneg agg.income agg.ledger hv.2 hv.1 t, hv.2⟩

/-- One tier-growth rule preserves aggregate validity: it only consumes a
store amount it has checked to be available. -/
theorem applyGrowth_valid (agg : UserAggregate) (g : GrowthRule) (hv : ValidAgg agg) :
    ValidAgg (applyGrowth agg g) := by
  by_cases h : 0 < g.threshold ∧ g.threshold ≤ agg.ledger g.resource
  · have heq : applyGrowth agg g = { agg with
        ledger := Function.update agg.ledger g.resource (agg.ledger g.resource - g.threshold),
        population := Function.update agg.population g.tier (agg.population g.tier + 1) } :=
      if_pos h
    rw [heq]
    refine ⟨fun t => ?_, hv.2⟩
    show 0 ≤ Function.update agg.ledger g.resource (agg.ledger g.resource - g.threshold) t
    rw [Function.update_apply]
    by_cases ht : t = g.resource
    · rw [if_pos ht]
      exact sub_nonneg.mpr h.2
    · rw [if_neg ht]
      exact hv.1 t
  · have heq : applyGrowth agg g = agg := if_neg h
    rw [heq]
    exact hv

/-- The tier-growth fold preserves aggregate validity. -/
theorem growthFold_valid (gs : List GrowthRule) :
    ∀ (agg : UserAggregate), ValidAgg agg → ValidAgg (gs.foldl applyGrowth agg) := by
  induction gs with
  | nil => intro agg hv; exact hv
  | cons g rest ih =>
    intro agg hv
    rw [List.foldl_cons]
    exact ih _ (applyGrowth_valid agg g hv)

/-- The unlock evaluator preserves aggregate validity: it changes neither
the ledger nor the income sources. -/
theorem evaluate_valid (rules : List FeatureRule) (agg : UserAggregate)
    (hv : ValidAgg agg) : ValidAgg (evaluate rules agg).1 := by
  obtain ⟨hl, -, hi⟩ := evaluateAux_state rules agg []
  constructor
  · intro t
    show 0 ≤ (evaluate rules agg).1.ledger t
    rw [show (evaluate rules agg).1.ledger = agg.ledger from hl]
    exact hv.1 t
  · show ∀ src ∈ (evaluate rules agg).1.income, 0 ≤ src.rate
    rw [show (evaluate rules agg).1.income = agg.income from hi]
    exact hv.2

/-- Every engine operation preserves aggregate validity: a failing
operation leaves the aggregate unchanged, and a succeeding one only makes
guarded mutations. -/
theorem applyOp_valid (cfg : EngineConfig) (hcfg : ConfigValid cfg)
    (agg : UserAggregate) (op : EngineOp) (hv : ValidAgg agg) :
    ValidAgg (applyOp cfg agg op) := by
  cases op with
  | adjustOp t d =>
    by_cases h : agg.ledger t + d < 0
    · have heq : adjust agg t d = Except.error EngineError.insufficientResources := if_pos h
      simp only [applyOp, heq]
      exact hv
    · have heq : adjust agg t d
          = Except.ok { agg with ledger := Function.update agg.ledger t (agg.ledger t + d) } :=
        if_neg h
      simp only [applyOp, heq]
      refine ⟨fun t' => ?_, hv.2⟩
      show 0 ≤ Function.update agg.ledger t (agg.ledger t + d) t'
      rw [Function.update_apply]
      by_cases ht : t' = t
      · rw [if_pos ht]
        exact not_lt.mp h
      · rw [if_neg ht]
        exact hv.1 t'
  | accrueOp => exact accrue_valid agg hv
  | transformOp rid =>
    cases hrec : cfg.recipes rid with
    | none =>
      have heq : transform cfg.recipes rid agg = Except.error EngineError.unknownRecipe := by
        unfold transform
        rw [hrec]
      simp only [applyOp, heq]
      exact hv
    | some r =>
      by_cases hlt : agg.ledger r.input_resource < r.input_quantity
      · have heq : transform cfg.recipes rid agg
            = Except.error EngineError.insufficientResources := by
          unfold transform
          rw [hrec]
          exact if_pos hlt
        simp only [applyOp, heq]
        exact hv
      · have heq := transform_ok cfg.recipes rid r agg hrec hlt
        simp only [applyOp, heq]
        have hl1 : ∀ t', 0 ≤ Function.update agg.ledger r.input_resource
            (agg.ledger r.input_resource - r.input_quantity) t' := by
          intro t'
          rw [Function.update_apply]
          by_cases ht : t' = r.input_resource
          · rw [if_pos ht]
            exact sub_nonneg.mpr (not_lt.mp hlt)
          · rw [if_neg ht]
            exact hv.1 t'
        refine ⟨fun t' => ?_, hv.2⟩
        show 0 ≤ Function.update
          (Function.update agg.ledger r.input_resource
            (agg.ledger r.input_resource - r.input_quantity))
          r.output_resource
          (Function.update agg.ledger r.input_resource
            (agg.ledger r.input_resource - r.input_quantity) r.output_resource
            + r.output_quantity) t'
        rw [Function.update_apply]
        by_cases ht : t' = r.output_resource
        · rw [if_pos ht]
          exact add_nonneg (hl1 _) (le_of_lt (hcfg rid r hrec).2)
        · rw [if_neg ht]
          exact hl1 t'
  | transportOp f t c =>
    by_cases hadj : cfg.adjacent f t = false
    · have heq : transport cfg.adjacent f t c agg = Except.error EngineError.invalidTier :=
        if_pos hadj
      simp only [applyOp, heq]
      exact hv
    · by_cases hlt : agg.population f < (c : Int)
      · have heq : transport cfg.adjacent f t c agg
            = Except.error EngineError.insufficientPopulation := by
          unfold transport
          rw [if_neg hadj]
          exact if_pos hlt
        simp only [applyOp, heq]
        exact hv
      · have heq : transport cfg.adjacent f t c agg
            = Except.ok { agg with population := (Function.update
              (Function.update agg.population f (agg.population f - c)) t
              (Function.update agg.population f (agg.population f - c) t + c)) } := by
          unfold transport
          rw [if_neg hadj]
          exact if_neg hlt
        simp only [applyOp, heq]
        exact ⟨hv.1, hv.2⟩
  | tickOp =>
    exact growthFold_valid cfg.growth _ (evaluate_valid cfg.rules _ (accrue_valid agg hv))

/-- Folding any list of engine operations preserves aggregate validity. -/
theorem foldOps_valid (cfg : EngineConfig) (hcfg : ConfigValid cfg) (ops : List EngineOp) :
    ∀ (agg : UserAggregate), ValidAgg agg → ValidAgg (ops.foldl (applyOp cfg) agg) := by
  induction ops with
  | nil => intro agg hv; exact hv
  | cons op rest ih =>
    intro agg hv
    rw [List.foldl_cons]
    exact ih _ (applyOp_valid cfg hcfg agg op hv)

/-- C5. Starting from a valid state (non-negative ledger, non-negative
income rates) under a valid configuration (positive recipe quantities),
after any finite sequence of engine operations — income accrual, merchant
transform, transport, feature-unlock cost adjustments, tick processing —
every ledger quantity of every resource type is still non-negative. -/
theorem C5_ledger_never_negative (cfg : EngineConfig) (ops : List EngineOp)
    (agg : UserAggregate) (hcfg : ConfigValid cfg) (hv : ValidAgg agg) :
    ∀ t, 0 ≤ (ops.foldl (applyOp cfg) agg).ledger t :=
  (foldOps_valid cfg hcfg ops agg hv).1

/-- Witness for C5: a concrete four-operation run (accrual, the gold→gem
transform, a −10 gold adjustment, a tick) over the 100-gold aggregate
leaves the gold entry non-negative. -/
theorem C5_ledger_never_negative_witness :
    0 ≤ (List.foldl (applyOp demoCfg) demoRichAgg
      [EngineOp.accrueOp, EngineOp.transformOp "gold_to_gem",
        EngineOp.adjustOp "gold" (-10), EngineOp.tickOp]).ledger "gold" := by
  have hcfg : ConfigValid demoCfg := by
    intro rid r h
    by_cases hr : rid = "gold_to_gem"
    · simp only [demoCfg, demoRecipes, if_pos hr] at h
      injection h with h
      subst h
      exact ⟨by norm_num, by norm_num⟩
    · simp only [demoCfg, demoRecipes, if_neg hr] at h
      exact Option.noConfusion h
  have hv : ValidAgg demoRichAgg := by
    constructor
    · intro t
      by_cases h : t = "gold"
      · subst h
        decide
      · show 0 ≤ Function.update demoAgg.ledger "gold" 100 t
        rw [Function.update_noteq h]
        exact le_refl 0
    · intro src hsrc
      exact absurd hsrc (List.not_mem_nil src)
  exact C5_ledger_never_negative demoCfg
    [EngineOp.accrueOp, EngineOp.transformOp "gold_to_gem",
      EngineOp.adjustOp "gold" (-10), EngineOp.tickOp]
    demoRichAgg hcfg hv "gold"

end RowanTree
